import Mathlib

/-!
Verification of the query-translation and response-shaping layer of the
webxr-directory application against its specification.

The definitions below are a shallow embedding of the backend route module
(webxr-directory-backend/routes/tools.js) and of the frontend filter-state
logic (webxr-directory-frontend/src/pages/HomePage.tsx together with
src/services/api.ts).  JavaScript strings are Lean `String`s, JavaScript
`undefined` is `Option.none`, and the JavaScript falsy coalescing `x || d`
is embedded explicitly for the value shapes that occur (strings and
numbers).  Record field bags become a structure of `Option`-valued fields;
the external store is abstracted as the argument/result of each handler.
-/

/-- Embedding of the JavaScript expression `v || d` where `v` is an
optional string field and `d` a string default: `undefined` and the empty
string are falsy, every other string is truthy. -/
def jsOrStr (v : Option String) (d : String) : String :=
  match v with
  | some s => if s = "" then d else s
  | none => d

/-- Embedding of `v || null` for an optional string field: `undefined`
and `""` collapse to `null` (here `none`). -/
def jsOrNullStr (v : Option String) : Option String :=
  match v with
  | some s => if s = "" then none else some s
  | none => none

/-- Embedding of `v || null` for an optional numeric field: `undefined`
and `0` collapse to `null` (here `none`). -/
def jsOrNullNum (v : Option Int) : Option Int :=
  match v with
  | some n => if n = 0 then none else some n
  | none => none

/-- The field bag of a store record as selected by the backend
(`fieldsToSelect = ['title', 'description', 'link', 'tags', 'rating',
'thumbnail', 'author']`).  A missing field is `none`. -/
structure AirtableFields where
  title : Option String := none
  description : Option String := none
  link : Option String := none
  tags : Option String := none
  rating : Option Int := none
  thumbnail : Option String := none
  author : Option String := none
deriving Repr, DecidableEq

/-- A record as returned by the store: an opaque id plus the field bag. -/
structure AirtableRecord where
  id : String
  fields : AirtableFields
deriving Repr, DecidableEq

/-- The canonical normalized output shape produced by the backend. -/
structure Tool where
  id : String
  name : String
  description : String
  shortDescription : String
  url : Option String
  category : Option String
  rating : Option Int
  imageUrl : Option String
  author : Option String
deriving Repr, DecidableEq

/-- Embedding of `formatRecord` from routes/tools.js: the per-record
normalization applied on every read path. -/
def formatRecord (record : AirtableRecord) : Tool :=
  let fields := record.fields
  { id := record.id
    name := jsOrStr fields.title "Untitled Tool"
    description := jsOrStr fields.description ""
    shortDescription := jsOrStr fields.description ""
    url := jsOrNullStr fields.link
    category := jsOrNullStr fields.tags
    rating := jsOrNullNum fields.rating
    imageUrl := jsOrNullStr fields.thumbnail
    author := jsOrNullStr fields.author }

/-- Embedding of the global regex replacement `.replace(/'/g, "\\'")` on
the character list of a string: every single-quote character is replaced
by the two characters backslash, quote. -/
def escapeQuotesList : List Char → List Char
  | [] => []
  | c :: rest =>
    if c = '\'' then '\\' :: '\'' :: escapeQuotesList rest
    else c :: escapeQuotesList rest

/-- String-level wrapper for `escapeQuotesList`. -/
def escapeQuotes (s : String) : String :=
  ⟨escapeQuotesList s.data⟩

/-- Embedding of JavaScript `String.prototype.split(',')` on the character
list: segments between commas, in order, empty segments preserved. -/
def splitCommaList : List Char → List (List Char)
  | [] => [[]]
  | c :: rest =>
    if c = ',' then [] :: splitCommaList rest
    else
      match splitCommaList rest with
      | s :: ss => (c :: s) :: ss
      | [] => [[c]]

/-- String-level wrapper for `splitCommaList`. -/
def splitComma (s : String) : List String :=
  (splitCommaList s.data).map (fun l => ⟨l⟩)

/-- Embedding of JavaScript `String.prototype.trim()`: drop whitespace
from both ends. -/
def jsTrimList (l : List Char) : List Char :=
  ((l.dropWhile Char.isWhitespace).reverse.dropWhile Char.isWhitespace).reverse

/-- String-level wrapper for `jsTrimList`. -/
def jsTrim (s : String) : String :=
  ⟨jsTrimList s.data⟩

/-- Embedding of the search clause built in step 1 of the list query:
lower-case the term, escape single quotes, and interpolate it into the
OR-of-SEARCH template over the title, description and tags fields.  The
whitespace inside the string reproduces the template literal of the
source. -/
def searchClause (search : String) : String :=
  let searchTerm := escapeQuotes search.toLower
  "OR(\n                SEARCH('" ++ searchTerm ++
    "', {title}),\n                SEARCH('" ++ searchTerm ++
    "', {description}),\n                SEARCH('" ++ searchTerm ++
    "', {tags})\n            )"

/-- Embedding of the category term list of step 2 of the list query:
`category.split(',').map(cat => cat.trim().replace(/'/g, "\\'")).filter(cat
=> cat.length > 0)`. -/
def categoryTerms (category : String) : List String :=
  ((splitComma category).map (fun cat => escapeQuotes (jsTrim cat))).filter
    (fun cat => cat.length > 0)

/-- Embedding of the category clause of step 2: an OR of SEARCH calls over
the tags field, one per derived term; `none` when the derived term list is
empty (no clause is pushed). -/
def categoryClause (category : String) : Option String :=
  let categoryList := categoryTerms category
  if categoryList.length > 0 then
    some ("OR(" ++ String.intercalate ", "
      (categoryList.map (fun catTerm => "SEARCH('" ++ catTerm ++ "', {tags})")) ++ ")")
  else none

/-- JavaScript truthiness of an optional query-string parameter:
`undefined` and the empty string are falsy. -/
def truthyStr : Option String → Bool
  | some s => s ≠ ""
  | none => false

/-- The `formulaParts` array of the list query: the search clause is
pushed when `search` is truthy, then the category clause is pushed when
`category` is truthy and its derived term list is non-empty. -/
def formulaParts (search category : Option String) : List String :=
  let p1 : List String :=
    match search with
    | some s => if s = "" then [] else [searchClause s]
    | none => []
  let p2 : List String :=
    match category with
    | some c =>
      if c = "" then []
      else
        match categoryClause c with
        | some cl => [cl]
        | none => []
    | none => []
  p1 ++ p2

/-- Step 3 of the list query: `filterByFormula` is the AND-join of the
collected parts when any exist, and the empty string otherwise. -/
def filterByFormula (search category : Option String) : String :=
  let parts := formulaParts search category
  if parts.length > 0 then "AND(" ++ String.intercalate ", " parts ++ ")"
  else ""

/-- Step 4 of the list query, sort field: destructuring default `'title'`
for an absent parameter, then whitelist validation against
`['title', 'rating']` with fallback `'title'`. -/
def safeSortBy (sortBy : Option String) : String :=
  let s := sortBy.getD "title"
  if ["title", "rating"].contains s then s else "title"

/-- Step 4 of the list query, sort order: destructuring default `'asc'`,
then `sortOrder === 'desc' ? 'desc' : 'asc'`. -/
def safeSortOrder (sortOrder : Option String) : String :=
  let s := sortOrder.getD "asc"
  if s = "desc" then "desc" else "asc"

/-- The error object thrown by the store client, as inspected by the
get-by-id handler: an optional HTTP status code and an optional error
code string. -/
structure StoreError where
  statusCode : Option Nat := none
  errorCode : Option String := none
deriving Repr, DecidableEq

/-- Possible outcomes of the get-by-id route: a normalized record, the
domain-specific not-found error (status 404 with a message), or the
original store error propagated unchanged to the generic handler. -/
inductive GetByIdOutcome where
  | ok (tool : Tool)
  | notFound (status : Nat) (message : String)
  | storeFailure (err : StoreError)
deriving Repr, DecidableEq

/-- Embedding of the GET /api/tools/:id handler body: on success the
found record is normalized with `formatRecord`; on failure, a store error
with `statusCode === 404` or `error === 'NOT_FOUND'` becomes a 404 whose
message interpolates the requested id, and any other error is passed to
`next` unchanged. -/
def getByIdHandler (id : String) (findResult : Except StoreError AirtableRecord) :
    GetByIdOutcome :=
  match findResult with
  | .ok record => .ok (formatRecord record)
  | .error err =>
    if err.statusCode = some 404 ∨ err.errorCode = some "NOT_FOUND" then
      .notFound 404 ("Tool with ID '" ++ id ++ "' not found")
    else
      .storeFailure err

/-- The submission request body of POST /api/tools/submit.  Each key of
`req.body` that the handler reads becomes one optional string field; an
absent key is `none`. -/
structure SubmissionPayload where
  toolName : Option String := none
  url : Option String := none
  description : Option String := none
  category : Option String := none
  imageUrl : Option String := none
deriving Repr, DecidableEq

/-- Embedding of `!receivedData[k]?.trim()`: true when the key is absent
or its value is empty after trimming. -/
def isBlank : Option String → Bool
  | none => true
  | some s => jsTrim s = ""

/-- Embedding of the validation block of the submission handler.
`urlParses` stands for the external WHATWG `new URL(...)` constructor
succeeding on its argument; it is a parameter because the URL parser is
library code outside this repository.  The four checks run
unconditionally and their error entries accumulate in source order. -/
def validateSubmission (urlParses : String → Bool) (p : SubmissionPayload) :
    List (String × String) :=
  (if isBlank p.toolName then [("Tool Name", "Tool Name is required")] else []) ++
  (match p.url with
    | none => [("URL", "Tool URL is required")]
    | some u =>
      if jsTrim u = "" then [("URL", "Tool URL is required")]
      else if urlParses u then [] else [("URL", "Invalid URL format")]) ++
  (if isBlank p.description then [("Description", "Description is required")] else []) ++
  (if isBlank p.category then [("Category", "Category is required")] else [])

/-- Embedding of the `newToolData` field map built after validation
passes: the four required submission fields mapped onto the store's field
names, plus `thumbnail` exactly when `receivedData['Image URL']` is
truthy.  Validation guarantees the four required fields are present, so
the `getD ""` defaults are unreachable on the path where this map is
built. -/
def newToolData (p : SubmissionPayload) : List (String × String) :=
  [("title", p.toolName.getD ""), ("link", p.url.getD ""),
   ("description", p.description.getD ""), ("tags", p.category.getD "")] ++
  (match p.imageUrl with
    | some img => if img = "" then [] else [("thumbnail", img)]
    | none => [])

/-- Possible outcomes of the submission handler before the store round
trip: a 400 validation error carrying the details map, or a create call
whose argument is the list of field maps passed to `base(table).create`. -/
inductive SubmitOutcome where
  | validationFailed (status : Nat) (message : String) (details : List (String × String))
  | createRecords (fieldMaps : List (List (String × String)))
deriving Repr, DecidableEq

/-- Embedding of the POST /api/tools/submit handler body up to the store
call: validate, and either fail with status 400 and the accumulated
details, or issue exactly the create call the source issues
(`create([{ fields: newToolData }])`). -/
def submitHandler (urlParses : String → Bool) (p : SubmissionPayload) : SubmitOutcome :=
  let errors := validateSubmission urlParses p
  if errors.length > 0 then .validationFailed 400 "Validation failed" errors
  else .createRecords [newToolData p]

/-- Embedding of the success response of the submission handler:
`res.status(201).json(formatRecord(createdRecords[0]))` applied to the
records the store returns from the create call. -/
def submitResponse (createdRecords : List AirtableRecord) : Option (Nat × Tool) :=
  match createdRecords with
  | r :: _ => some (201, formatRecord r)
  | [] => none

/-- Modelled from the spec: the frontend debounce
(`debounce((value) => setSearchTerm(value), 400)` in HomePage.tsx) uses
the external lodash.debounce library, whose source is not part of this
repository.  The spec reframes it as: schedule the callback to run after
the quiet interval since the last call; a call before the interval
elapses cancels the pending run and reschedules.  A keystroke trace is a
time-stamped list of input values; an entry emits its value `wait` units
after its time exactly when no later entry arrives within `wait` units. -/
def debounceEmits (wait : Nat) : List (Nat × String) → List (Nat × String)
  | [] => []
  | (t, s) :: rest =>
    match rest with
    | [] => [(t + wait, s)]
    | (t2, _) :: _ =>
      if t2 < t + wait then debounceEmits wait rest
      else (t + wait, s) :: debounceEmits wait rest

/-- Embedding of the search parameter the frontend sends for a settled
search term: HomePage passes `search: searchTerm || undefined` and the
api client drops undefined and empty parameters, so an empty settled term
sends no search parameter. -/
def searchParamOf (searchTerm : String) : Option String :=
  if searchTerm = "" then none else some searchTerm

/-- The fetches caused by the search box over a keystroke trace: one
fetch per settled (debounced) value, carrying that value as the search
parameter; raw keystrokes appear only through `debounceEmits`, never
directly. -/
def searchFetches (keystrokes : List (Nat × String)) : List (Option String) :=
  (debounceEmits 400 keystrokes).map (fun e => searchParamOf e.2)

/-- The required submission fields that are missing or blank after
trimming, listed in the order the handler checks them.  This is the
specification-side description of which keys the validation details map
should contain. -/
def blankRequiredFields (p : SubmissionPayload) : List String :=
  (if isBlank p.toolName then ["Tool Name"] else []) ++
  (if isBlank p.url then ["URL"] else []) ++
  (if isBlank p.description then ["Description"] else []) ++
  (if isBlank p.category then ["Category"] else [])

/-- A character list in which every single-quote character occurs only as
the second character of a backslash-quote pair: the escaped form a
formula string literal can absorb without the quote acting as a
delimiter. -/
inductive EscOk : List Char → Prop
  | nil : EscOk []
  | escaped (rest : List Char) : EscOk rest → EscOk ('\\' :: '\'' :: rest)
  | plain (c : Char) (rest : List Char) (h : c ≠ '\'') : EscOk rest → EscOk (c :: rest)

/-! Helper lemmas shared by the claim theorems. -/

theorem jsOrStr_ne_empty (v : Option String) (d : String) (hd : d ≠ "") :
    jsOrStr v d ≠ "" := by
  cases v with
  | none => simpa [jsOrStr] using hd
  | some s =>
    by_cases hs : s = "" <;> simp [jsOrStr, hs, hd]

theorem jsOrNullStr_ne_some_empty (v : Option String) : jsOrNullStr v ≠ some "" := by
  cases v with
  | none => simp [jsOrNullStr]
  | some s =>
    by_cases hs : s = "" <;> simp [jsOrNullStr, hs]

theorem intercalateSingle (a : String) : String.intercalate ", " [a] = a := rfl

theorem intercalatePair (a b : String) :
    String.intercalate ", " [a, b] = a ++ ", " ++ b := rfl

theorem escapeQuotesList_escOk (l : List Char) : EscOk (escapeQuotesList l) := by
  induction l with
  | nil => exact .nil
  | cons c rest ih =>
    by_cases hc : c = '\''
    · rw [show escapeQuotesList (c :: rest) =
        '\\' :: '\'' :: escapeQuotesList rest by simp [escapeQuotesList, hc]]
      exact .escaped _ ih
    · rw [show escapeQuotesList (c :: rest) = c :: escapeQuotesList rest by
        simp [escapeQuotesList, hc]]
      exact .plain c _ hc ih

theorem escapeQuotesList_of_quote_free (l : List Char) (h : ∀ c ∈ l, c ≠ '\'') :
    escapeQuotesList l = l := by
  induction l with
  | nil => rfl
  | cons c rest ih =>
    have hc : c ≠ '\'' := h c (List.mem_cons_self c rest)
    simp only [escapeQuotesList, if_neg hc]
    exact congrArg (c :: ·) (ih (fun x hx => h x (List.mem_cons_of_mem c hx)))

theorem splitCommaList_ne_nil (l : List Char) : splitCommaList l ≠ [] := by
  induction l with
  | nil => simp [splitCommaList]
  | cons c rest ih =>
    by_cases hc : c = ','
    · simp [splitCommaList, hc]
    · simp only [splitCommaList, if_neg hc]
      cases hrest : splitCommaList rest with
      | nil => exact absurd hrest ih
      | cons s ss => simp

theorem splitCommaList_mem_subset (l : List Char) :
    ∀ seg ∈ splitCommaList l, ∀ c ∈ seg, c ∈ l := by
  induction l with
  | nil =>
    intro seg hseg c hc
    simp only [splitCommaList, List.mem_singleton] at hseg
    subst hseg
    simp at hc
  | cons a rest ih =>
    intro seg hseg c hc
    by_cases ha : a = ','
    · simp only [splitCommaList, if_pos ha, List.mem_cons] at hseg
      rcases hseg with h | h
      · subst h; simp at hc
      · exact List.mem_cons_of_mem a (ih seg h c hc)
    · simp only [splitCommaList, if_neg ha] at hseg
      cases hrest : splitCommaList rest with
      | nil => exact absurd hrest (splitCommaList_ne_nil rest)
      | cons s ss =>
        rw [hrest] at hseg
        rcases List.mem_cons.mp hseg with h | h
        · subst h
          rcases List.mem_cons.mp hc with h | h
          · exact h ▸ List.mem_cons_self a rest
          · exact List.mem_cons_of_mem a
              (ih s (hrest ▸ List.mem_cons_self s ss) c h)
        · exact List.mem_cons_of_mem a
            (ih seg (hrest ▸ List.mem_cons_of_mem s h) c hc)

theorem jsTrimList_subset (l : List Char) : ∀ c ∈ jsTrimList l, c ∈ l := by
  intro c hc
  unfold jsTrimList at hc
  rw [List.mem_reverse] at hc
  have h1 := (List.dropWhile_sublist Char.isWhitespace).subset hc
  rw [List.mem_reverse] at h1
  exact (List.dropWhile_sublist Char.isWhitespace).subset h1

/-- Claim C6: every `sortBy` value outside the whitelist {title, rating}
(including absent) yields the effective sort field `title`; every
`sortOrder` value other than exactly `desc` (including absent) yields the
effective order `asc`; whitelisted values and `desc` pass through as
given. -/
theorem sort_parameter_fallbacks :
    safeSortBy none = "title" ∧
    (∀ v : String, v ≠ "title" → v ≠ "rating" → safeSortBy (some v) = "title") ∧
    safeSortBy (some "title") = "title" ∧
    safeSortBy (some "rating") = "rating" ∧
    safeSortOrder none = "asc" ∧
    (∀ v : String, v ≠ "desc" → safeSortOrder (some v) = "asc") ∧
    safeSortOrder (some "desc") = "desc" := by
  refine ⟨rfl, ?_, rfl, rfl, rfl, ?_, rfl⟩
  · intro v h1 h2
    simp [safeSortBy, h1, h2]
  · intro v h
    simp [safeSortOrder, h]

/-- Witness for C6 at concrete invalid parameters. -/
theorem sort_parameter_fallbacks_witness :
    safeSortBy (some "bogus") = "title" ∧ safeSortOrder (some "DESC") = "asc" :=
  ⟨sort_parameter_fallbacks.2.1 "bogus" (by decide) (by decide),
   sort_parameter_fallbacks.2.2.2.2.2.1 "DESC" (by decide)⟩

/-- Claim C10: the normalization treats every falsy stored field value as
missing: an empty-string title normalizes to the placeholder name, empty
strings in link, tags, thumbnail and author normalize to `none`, a
normalized record never carries an empty-string name, url, category,
imageUrl or author, and a stored empty string is indistinguishable from
an absent field. -/
theorem formatRecord_falsy_collapse :
    (∀ r : AirtableRecord,
      (formatRecord r).name ≠ "" ∧
      (formatRecord r).url ≠ some "" ∧
      (formatRecord r).category ≠ some "" ∧
      (formatRecord r).imageUrl ≠ some "" ∧
      (formatRecord r).author ≠ some "") ∧
    (∀ idv : String, ∀ f : AirtableFields,
      formatRecord ⟨idv, { f with title := some "" }⟩ =
        formatRecord ⟨idv, { f with title := none }⟩ ∧
      formatRecord ⟨idv, { f with link := some "" }⟩ =
        formatRecord ⟨idv, { f with link := none }⟩ ∧
      formatRecord ⟨idv, { f with tags := some "" }⟩ =
        formatRecord ⟨idv, { f with tags := none }⟩ ∧
      formatRecord ⟨idv, { f with thumbnail := some "" }⟩ =
        formatRecord ⟨idv, { f with thumbnail := none }⟩ ∧
      formatRecord ⟨idv, { f with author := some "" }⟩ =
        formatRecord ⟨idv, { f with author := none }⟩) ∧
    (formatRecord ⟨"rec0", { title := some "" }⟩).name = "Untitled Tool" ∧
    (formatRecord ⟨"rec0", { link := some "" }⟩).url = none := by
  refine ⟨?_, ?_, rfl, rfl⟩
  · intro r
    exact ⟨jsOrStr_ne_empty _ _ (by decide),
      jsOrNullStr_ne_some_empty _, jsOrNullStr_ne_some_empty _,
      jsOrNullStr_ne_some_empty _, jsOrNullStr_ne_some_empty _⟩
  · intro idv f
    refine ⟨?_, ?_, ?_, ?_, ?_⟩ <;> simp [formatRecord, jsOrStr, jsOrNullStr]

/-- Claim C2: the specification requires a stored rating of 0 to
normalize to the rating 0, distinguished from an absent rating's `null`;
this theorem records what the code actually does at that input: the
JavaScript coalescing `fields['rating'] || null` collapses the falsy
number 0 to `null`, identically to an absent rating. -/
theorem rating_zero_collapses_to_null :
    (formatRecord ⟨"rec0", { rating := some 0 }⟩).rating = none ∧
    (formatRecord ⟨"rec0", { rating := none }⟩).rating = none ∧
    (formatRecord ⟨"rec0", { rating := some 0 }⟩).rating ≠ some 0 ∧
    (formatRecord ⟨"rec0", { rating := some 4 }⟩).rating = some 4 := by
  exact ⟨rfl, rfl, by simp [formatRecord, jsOrNullNum], rfl⟩

/-- Counterexample to claim C1 as stated: when only the search clause
exists, the filter formula is not the clause used alone; it is the clause
wrapped in an `AND(...)` combinator. -/
theorem single_clause_not_used_alone :
    filterByFormula (some "vr") none ≠ searchClause "vr" ∧
    filterByFormula (some "vr") none = "AND(" ++ searchClause "vr" ++ ")" := by
  constructor
  · decide
  · rfl

/-- Claim C1 as amended: when both clauses exist the filter formula is
the AND of the two; when exactly one exists the formula is that single
clause still wrapped in AND; when neither exists the formula is the empty
string, applying no filter. -/
theorem filter_formula_combination :
    (∀ s : String, s ≠ "" →
      filterByFormula (some s) none = "AND(" ++ searchClause s ++ ")") ∧
    (∀ c cl : String, c ≠ "" → categoryClause c = some cl →
      filterByFormula none (some c) = "AND(" ++ cl ++ ")") ∧
    (∀ s c cl : String, s ≠ "" → c ≠ "" → categoryClause c = some cl →
      filterByFormula (some s) (some c) =
        "AND(" ++ (searchClause s ++ ", " ++ cl) ++ ")") ∧
    filterByFormula none none = "" ∧
    (∀ c : String, categoryClause c = none → filterByFormula none (some c) = "") := by
  refine ⟨?_, ?_, ?_, rfl, ?_⟩
  · intro s hs
    simp [filterByFormula, formulaParts, hs, intercalateSingle]
  · intro c cl hc hcl
    simp [filterByFormula, formulaParts, hc, hcl, intercalateSingle]
  · intro s c cl hs hc hcl
    simp [filterByFormula, formulaParts, hs, hc, hcl, intercalatePair]
  · intro c hcl
    by_cases hc : c = "" <;> simp [filterByFormula, formulaParts, hc, hcl]

/-- Witness for the amended C1 at concrete parameters. -/
theorem filter_formula_combination_witness :
    filterByFormula none (some "VR,History") =
      "AND(" ++ "OR(SEARCH('VR', {tags}), SEARCH('History', {tags}))" ++ ")" :=
  filter_formula_combination.2.1 "VR,History"
    "OR(SEARCH('VR', {tags}), SEARCH('History', {tags}))" (by decide) (by decide)

/-- Claim C7: the get-by-id operation yields a 404 not-found failure
whose message contains the requested id exactly when the store reports
the id unknown (status 404 or error code NOT_FOUND); every other store
failure is propagated unchanged as a generic failure; and on success the
normalized record's id equals the requested id. -/
theorem getById_not_found_mapping :
    (∀ idv : String, ∀ err : StoreError,
      (err.statusCode = some 404 ∨ err.errorCode = some "NOT_FOUND") →
      getByIdHandler idv (.error err) =
        .notFound 404 ("Tool with ID '" ++ idv ++ "' not found") ∧
      ∃ pre post : String,
        "Tool with ID '" ++ idv ++ "' not found" = pre ++ idv ++ post) ∧
    (∀ idv : String, ∀ err : StoreError,
      err.statusCode ≠ some 404 → err.errorCode ≠ some "NOT_FOUND" →
      getByIdHandler idv (.error err) = .storeFailure err) ∧
    (∀ idv : String, ∀ r : AirtableRecord, r.id = idv →
      getByIdHandler idv (.ok r) = .ok (formatRecord r) ∧
      (formatRecord r).id = idv) := by
  refine ⟨?_, ?_, ?_⟩
  · intro idv err h
    exact ⟨by simp [getByIdHandler, h], "Tool with ID '", "' not found", rfl⟩
  · intro idv err h1 h2
    simp [getByIdHandler, h1, h2]
  · intro idv r h
    exact ⟨rfl, h ▸ rfl⟩

/-- Witness for C7 at a concrete id, a 404 store error, a 500 store
error and a successful find. -/
theorem getById_not_found_mapping_witness :
    getByIdHandler "recX" (.error { statusCode := some 404 }) =
      .notFound 404 "Tool with ID 'recX' not found" ∧
    getByIdHandler "recX" (.error { statusCode := some 500 }) =
      .storeFailure { statusCode := some 500 } ∧
    getByIdHandler "recX" (.ok ⟨"recX", {}⟩) = .ok (formatRecord ⟨"recX", {}⟩) := by
  refine ⟨?_, ?_, ?_⟩
  · exact (getById_not_found_mapping.1 "recX" _ (Or.inl rfl)).1
  · exact getById_not_found_mapping.2.1 "recX" _ (by decide) (by simp)
  · exact (getById_not_found_mapping.2.2 "recX" _ rfl).1

/-- Claim C3: the submission validation accumulates all violations before
any store call: whenever exactly two of the four required fields are
missing or blank after trimming and the remaining fields are otherwise
valid, the handler fails with status 400 and a details map containing
exactly those two field keys, and no store-creation call is made. -/
theorem submission_validation_accumulates
    (f : String → Bool) (p : SubmissionPayload)
    (hurl : ∀ u, p.url = some u → jsTrim u ≠ "" → f u = true)
    (h2 : (blankRequiredFields p).length = 2) :
    (validateSubmission f p).map Prod.fst = blankRequiredFields p ∧
    (validateSubmission f p).length = 2 ∧
    submitHandler f p =
      .validationFailed 400 "Validation failed" (validateSubmission f p) := by
  have hmap : ∀ (b : Bool) (k m : String),
      (if b then [(k, m)] else []).map Prod.fst = if b then [k] else [] := by
    intro b k m; cases b <;> simp
  have hkeys : (validateSubmission f p).map Prod.fst = blankRequiredFields p := by
    cases hu : p.url with
    | none =>
      simp [validateSubmission, blankRequiredFields, hu, isBlank, hmap]
    | some u =>
      by_cases ht : jsTrim u = ""
      · simp [validateSubmission, blankRequiredFields, hu, ht, isBlank, hmap]
      · have hf : f u = true := hurl u hu ht
        simp [validateSubmission, blankRequiredFields, hu, ht, hf, isBlank, hmap]
  have hlen : (validateSubmission f p).length = 2 := by
    have := congrArg List.length hkeys
    simpa using this.trans h2
  exact ⟨hkeys, hlen, by simp [submitHandler, hlen]⟩

/-- Witness for C3: a payload missing Description and with a blank
Category fails with exactly those two detail keys and issues no create
call. -/
theorem submission_validation_accumulates_witness :
    (validateSubmission (fun _ => true)
      { toolName := some "Tool", url := some "http://example.com",
        description := none, category := some " " }).map Prod.fst =
      ["Description", "Category"] ∧
    submitHandler (fun _ => true)
      { toolName := some "Tool", url := some "http://example.com",
        description := none, category := some " " } =
      .validationFailed 400 "Validation failed"
        [("Description", "Description is required"),
         ("Category", "Category is required")] := by
  have h := submission_validation_accumulates (fun _ => true)
    { toolName := some "Tool", url := some "http://example.com",
      description := none, category := some " " }
    (fun u hu ht => rfl) (by decide)
  exact ⟨h.1.trans (by decide), h.2.2.trans (by decide)⟩

/-- Claim C8: for every payload that passes validation the field map sent
to the store has exactly the keys title, link, description, tags (from
Tool Name, URL, Description, Category), plus thumbnail exactly when a
non-empty Image URL value is provided; an absent or empty optional Image
URL adds no field at all; exactly one record is created; and the success
response is the created record normalized through `formatRecord`, the
same projection as the read path. -/
theorem submit_valid_payload_create
    (f : String → Bool) (p : SubmissionPayload)
    (hv : validateSubmission f p = []) :
    submitHandler f p = .createRecords [newToolData p] ∧
    isBlank p.toolName = false ∧ isBlank p.url = false ∧
    isBlank p.description = false ∧ isBlank p.category = false ∧
    (newToolData p).map Prod.fst =
      ["title", "link", "description", "tags"] ++
        (if truthyStr p.imageUrl then ["thumbnail"] else []) ∧
    ((p.imageUrl = none ∨ p.imageUrl = some "") →
      newToolData p =
        [("title", p.toolName.getD ""), ("link", p.url.getD ""),
         ("description", p.description.getD ""), ("tags", p.category.getD "")]) ∧
    (∀ img : String, p.imageUrl = some img → img ≠ "" →
      newToolData p =
        [("title", p.toolName.getD ""), ("link", p.url.getD ""),
         ("description", p.description.getD ""), ("tags", p.category.getD ""),
         ("thumbnail", img)]) ∧
    (∀ created : AirtableRecord,
      submitResponse [created] = some (201, formatRecord created)) := by
  have h3 := List.append_eq_nil.mp hv
  have h2b := List.append_eq_nil.mp h3.1
  have h1b := List.append_eq_nil.mp h2b.1
  have hbn : isBlank p.toolName = false := by
    cases hb : isBlank p.toolName with
    | false => rfl
    | true => rw [hb] at h1b; simp at h1b
  have hbu : isBlank p.url = false := by
    have hurlnil := h1b.2
    cases hu : p.url with
    | none => rw [hu] at hurlnil; simp at hurlnil
    | some u =>
      rw [hu] at hurlnil
      by_cases ht : jsTrim u = ""
      · simp [ht] at hurlnil
      · simp [isBlank, ht]
  have hbd : isBlank p.description = false := by
    cases hb : isBlank p.description with
    | false => rfl
    | true => rw [hb] at h2b; simp at h2b
  have hbc : isBlank p.category = false := by
    cases hb : isBlank p.category with
    | false => rfl
    | true => rw [hb] at h3; simp at h3
  refine ⟨by simp [submitHandler, hv], hbn, hbu, hbd, hbc, ?_, ?_, ?_, ?_⟩
  · cases hi : p.imageUrl with
    | none => simp [newToolData, hi, truthyStr]
    | some img =>
      by_cases hie : img = "" <;> simp [newToolData, hi, hie, truthyStr]
  · intro h
    rcases h with h | h <;> simp [newToolData, h]
  · intro img hi hie
    simp [newToolData, hi, hie]
  · intro created
    rfl

/-- Witness for C8: a fully valid payload with an Image URL creates
exactly one record with the five mapped fields. -/
theorem submit_valid_payload_create_witness :
    submitHandler (fun _ => true)
      { toolName := some "T", url := some "http://x", description := some "d",
        category := some "VR", imageUrl := some "pic.png" } =
      .createRecords
        [[("title", "T"), ("link", "http://x"), ("description", "d"),
          ("tags", "VR"), ("thumbnail", "pic.png")]] ∧
    (newToolData
      { toolName := some "T", url := some "http://x", description := some "d",
        category := some "VR", imageUrl := some "pic.png" }).map Prod.fst =
      ["title", "link", "description", "tags", "thumbnail"] := by
  have h := submit_valid_payload_create (fun _ => true)
    { toolName := some "T", url := some "http://x", description := some "d",
      category := some "VR", imageUrl := some "pic.png" } (by decide)
  exact ⟨h.1.trans (by decide), (h.2.2.2.2.2.1).trans (by decide)⟩

/-- Claim C4: the list query lower-cases the search term and escapes
every single quote before interpolating it into the filter formula; the
resulting clause is the OR of substring SEARCH tests over the title,
description and tags fields; the interpolated term satisfies `EscOk`, so
every single quote the store sees inside the literal is backslash-escaped
rather than a literal delimiter; and quote-free terms pass through the
escaping unchanged. -/
theorem search_clause_escaped (s : String) :
    searchClause s =
      "OR(\n                SEARCH('" ++ escapeQuotes s.toLower ++
        "', {title}),\n                SEARCH('" ++ escapeQuotes s.toLower ++
        "', {description}),\n                SEARCH('" ++ escapeQuotes s.toLower ++
        "', {tags})\n            )" ∧
    EscOk (escapeQuotes s.toLower).data ∧
    (∀ t : String, (∀ c ∈ t.data, c ≠ '\'') → escapeQuotes t = t) := by
  refine ⟨rfl, escapeQuotesList_escOk _, ?_⟩
  intro t ht
  show (⟨escapeQuotesList t.data⟩ : String) = t
  rw [escapeQuotesList_of_quote_free t.data ht]

/-- Witness for C4 at a quoted and a quote-free term. -/
theorem search_clause_escaped_witness :
    EscOk (escapeQuotes "O'Brien".toLower).data ∧ escapeQuotes "vr" = "vr" :=
  ⟨(search_clause_escaped "O'Brien").2.1,
   (search_clause_escaped "x").2.2 "vr" (by decide)⟩

/-- Claim C5: the input " VR , ,History " derives exactly the term list
["VR", "History"] and its clause is the OR of one substring SEARCH test
per term over the tags field; for any input whose derived term list is
non-empty the clause is that OR; and for every quote-free category input
the derived term list is exactly split on commas, trim each segment, drop
the empty segments. -/
theorem category_terms_pipeline :
    categoryTerms " VR , ,History " = ["VR", "History"] ∧
    categoryClause " VR , ,History " =
      some "OR(SEARCH('VR', {tags}), SEARCH('History', {tags}))" ∧
    (∀ c : String, ∀ ts : List String, categoryTerms c = ts → ts ≠ [] →
      categoryClause c = some ("OR(" ++ String.intercalate ", "
        (ts.map (fun t => "SEARCH('" ++ t ++ "', {tags})")) ++ ")")) ∧
    (∀ c : String, (∀ ch ∈ c.data, ch ≠ '\'') →
      categoryTerms c = ((splitComma c).map jsTrim).filter
        (fun t => t.length > 0)) := by
  refine ⟨by decide, by decide, ?_, ?_⟩
  · intro c ts hts hne
    simp [categoryClause, hts, List.length_pos.mpr hne]
  · intro c hc
    have key : ∀ l ∈ splitCommaList c.data,
        escapeQuotes (jsTrim (⟨l⟩ : String)) = jsTrim (⟨l⟩ : String) := by
      intro l hl
      show (⟨escapeQuotesList (jsTrimList l)⟩ : String) = ⟨jsTrimList l⟩
      rw [escapeQuotesList_of_quote_free]
      intro ch hch
      exact hc ch (splitCommaList_mem_subset c.data l hl ch (jsTrimList_subset l ch hch))
    unfold categoryTerms splitComma
    rw [List.map_map, List.map_map]
    exact congrArg (List.filter _) (List.map_congr_left key)

/-- Witness for C5 at concrete category inputs. -/
theorem category_terms_pipeline_witness :
    categoryClause "VR,History" = some ("OR(" ++ String.intercalate ", "
      (["VR", "History"].map (fun t => "SEARCH('" ++ t ++ "', {tags})")) ++ ")") ∧
    categoryTerms " VR , ,History " =
      ((splitComma " VR , ,History ").map jsTrim).filter (fun t => t.length > 0) :=
  ⟨category_terms_pipeline.2.2.1 "VR,History" ["VR", "History"]
      (by decide) (by decide),
   category_terms_pipeline.2.2.2 " VR , ,History " (by decide)⟩

/-- Claim C9: over a rapid keystroke trace (each keystroke arriving
within the 400-unit debounce interval of the previous one) followed by
quiet, the debounced value settles exactly once, 400 units after the
final keystroke and carrying its text, so exactly one fetch is triggered
for the sequence, with the final text as the search parameter; raw
keystrokes reach fetching only through the debounced emissions. -/
theorem debounce_exactly_one_fetch
    (ks : List (Nat × String)) (t : Nat) (s : String)
    (hlast : ks.getLast? = some (t, s))
    (hrapid : List.Chain' (fun a b : Nat × String => b.1 < a.1 + 400) ks)
    (hs : s ≠ "") :
    debounceEmits 400 ks = [(t + 400, s)] ∧
    searchFetches ks = [some s] := by
  have hmain : debounceEmits 400 ks = [(t + 400, s)] := by
    induction ks with
    | nil => simp at hlast
    | cons a rest ih =>
      cases rest with
      | nil =>
        have ha : a = (t, s) := by simpa using hlast
        subst ha
        rfl
      | cons b rest2 =>
        have hchain := List.chain'_cons.mp hrapid
        have hlast2 : (b :: rest2).getLast? = some (t, s) := by
          simpa [List.getLast?_cons_cons] using hlast
        have hrec := ih hlast2 hchain.2
        obtain ⟨t0, s0⟩ := a
        obtain ⟨t2, s2⟩ := b
        simp only [debounceEmits]
        rw [if_pos hchain.1]
        exact hrec
  exact ⟨hmain, by simp [searchFetches, hmain, searchParamOf, hs]⟩

/-- Witness for C9: two rapid keystrokes "v" then "vr" settle into a
single emission at time 500 carrying "vr", hence one fetch with search
parameter "vr". -/
theorem debounce_exactly_one_fetch_witness :
    debounceEmits 400 [(0, "v"), (100, "vr")] = [(500, "vr")] ∧
    searchFetches [(0, "v"), (100, "vr")] = [some "vr"] :=
  debounce_exactly_one_fetch [(0, "v"), (100, "vr")] 100 "vr" (by decide)
    (List.chain'_cons.mpr ⟨by norm_num, List.chain'_singleton _⟩) (by decide)
